import Mathlib

/-!
Shallow embedding of the relevance-ranking and result-selection core of
`webhook.py` (AI-Powered multimodal chatbot for document querying).

Strings are modelled as `List Char` over the ASCII fragment (all inputs the
service handles in its tests are ASCII; Python `str.lower`, `str.strip` and
the regex `\w` coincide with the Lean character predicates on that fragment).
Python floats are modelled as exact rationals `ℚ`: every arithmetic operation
performed by the scorer (sums of non-negative quotients, comparisons against
the literal thresholds) is exact.

Firestore fetches are modelled as `Except Unit (List _)` values inside a
`Repo` snapshot: `Except.error` is a fetch that raised, `Except.ok` the
streamed documents. The cache-breaking timestamp of `get_public_url` is an
explicit `now : Nat` parameter.
-/

namespace Webhook

abbrev Str := List Char

/-- Python `s.lower()` (ASCII). -/
def lowerStr (s : Str) : Str := s.map Char.toLower

/-- A `\w` regex word character: alphanumeric or underscore (ASCII). -/
def isWordChar (c : Char) : Bool := c.isAlphanum || c == '_'

/-- Fuel-indexed worker for `re.findall(r'\w+', s)`: splits `s` into the
maximal runs of word characters, in order. The fuel is an upper bound on the
length of the remaining input, so it never runs out when started at
`s.length`. -/
def tokenizeAux : Nat → Str → List Str
  | _, [] => []
  | 0, _ :: _ => []
  | n + 1, c :: cs =>
    if isWordChar c then
      (c :: cs.takeWhile isWordChar) :: tokenizeAux n (cs.dropWhile isWordChar)
    else
      tokenizeAux n cs

/-- Python `re.findall(r'\w+', s)`. -/
def findWords (s : Str) : List Str := tokenizeAux s.length s

/-- Python `t.startswith(q)`: `q` is a prefix of `t`. -/
def startsWithB : Str → Str → Bool
  | [], _ => true
  | _ :: _, [] => false
  | a :: as, b :: bs => a == b && startsWithB as bs

/-- Python `q in t` on strings: `q` occurs contiguously inside `t`. -/
def substrB (q : Str) : Str → Bool
  | [] => startsWithB q []
  | c :: ts => startsWithB q (c :: ts) || substrB q ts

/-- `VIDEO_THRESHOLD = 0.001` (webhook.py line 33). -/
def VIDEO_THRESHOLD : ℚ := 1 / 1000

/-- `TEXT_THRESHOLD = 0.05` (webhook.py line 34). -/
def TEXT_THRESHOLD : ℚ := 1 / 20

/-- `IMAGE_THRESHOLD = 0.01` (webhook.py line 35). -/
def IMAGE_THRESHOLD : ℚ := 1 / 100

/-- `calculate_tfidf_score(query, text)` (webhook.py lines 65-90).
Empty arguments and empty token lists short-circuit to `0.0`; otherwise the
score is the average normalized frequency of the unique query words, plus a
`1.0` exact-substring bonus and a `0.5` title bonus. The `filter` mirrors
`if word in text_freq`; the surrounding `try/except` can only be entered
through arithmetic failure, which the exact rational model rules out. -/
def calculate_tfidf_score (query text : Str) : ℚ :=
  if query = [] ∨ text = [] then 0
  else
    let query_words := (findWords (lowerStr query)).dedup
    let text_words := findWords (lowerStr text)
    if query_words = [] ∨ text_words = [] then 0
    else
      let total_words : ℚ := (text_words.length : ℚ)
      let base_score :=
        ((query_words.filter (fun w => text_words.count w != 0)).map
          (fun w => (text_words.count w : ℚ) / total_words)).sum / (query_words.length : ℚ)
      let exact_match_bonus : ℚ :=
        if substrB (lowerStr query) (lowerStr text) then 1 else 0
      let title_match_bonus : ℚ :=
        if substrB "title".toList (lowerStr text)
            && query_words.any (fun w => substrB w (lowerStr text)) then 1 / 2 else 0
      base_score + exact_match_bonus + title_match_bonus

/-- Written from the spec's words for the refinement claim about the score
formula: `base_score = (Σ_{w∈Q, w∈T} freq(w)/N) / |Q|`, the sum ranging over
the SET of unique query words (words absent from `T` contribute zero). -/
def specBaseScore (query text : Str) : ℚ :=
  (Finset.sum (findWords (lowerStr query)).toFinset
      (fun w => ((findWords (lowerStr text)).count w : ℚ)
        / ((findWords (lowerStr text)).length : ℚ)))
    / (((findWords (lowerStr query)).toFinset.card : ℚ))

/-- Written from the spec's words: `exact_match_bonus = 1.0` iff the
lower-cased query appears as a substring of the lower-cased text. -/
def specExactBonus (query text : Str) : ℚ :=
  if substrB (lowerStr query) (lowerStr text) = true then 1 else 0

/-- Written from the spec's words: `title_match_bonus = 0.5` iff the literal
substring "title" appears in the lower-cased text and at least one query word
appears in the lower-cased text. -/
def specTitleBonus (query text : Str) : ℚ :=
  if substrB "title".toList (lowerStr text) = true ∧
      ∃ w ∈ (findWords (lowerStr query)).toFinset, substrB w (lowerStr text) = true
  then 1 / 2 else 0

/-- `BUCKET_NAME` (webhook.py line 30). -/
def BUCKET_NAME : Str := "allpdfs-bucket".toList

/-- One hexadecimal digit, upper case, as produced by `urllib.parse.quote`. -/
def hexDigitChar (n : Nat) : Char :=
  if n < 10 then Char.ofNat ('0'.toNat + n) else Char.ofNat ('A'.toNat + (n - 10))

/-- Characters `urllib.parse.quote` leaves unescaped (default `safe='/'`). -/
def isQuoteSafe (c : Char) : Bool :=
  c.isAlphanum || c == '_' || c == '.' || c == '-' || c == '~' || c == '/'

/-- `urllib.parse.quote(s)` on the ASCII fragment: percent-encodes every
unsafe character. -/
def pyQuote (s : Str) : Str :=
  (s.map (fun c =>
    if isQuoteSafe c then [c]
    else ['%', hexDigitChar (c.toNat / 16 % 16), hexDigitChar (c.toNat % 16)])).flatten

/-- `get_public_url(image_path)` (webhook.py lines 92-106): `None` exactly on
a falsy (empty) path, otherwise the storage URL with the cache-breaking
timestamp `now`. -/
def get_public_url (image_path : Str) (now : Nat) : Option Str :=
  if image_path = [] then none
  else
    some ("https://storage.googleapis.com/".toList ++ BUCKET_NAME ++ "/".toList
      ++ pyQuote image_path ++ "?t=".toList ++ (toString now).toList)

/-- A `pdf_text` document after the field extraction the webhook performs
(`content`, `source_file` defaulted to "Unknown", `page` defaulted to "N/A"
at the repository boundary). -/
structure TextRec where
  content : Str
  source_file : Str
  page : Str
deriving DecidableEq

/-- A `pdf_images_new` document; a missing `description` field is `none`
(the code then synthesizes one), a missing `image_path` is the empty
string. -/
structure ImageRec where
  image_path : Str
  description : Option Str
  source_file : Str
  page : Str
deriving DecidableEq

/-- A `videos` document. -/
structure VideoRec where
  title : Str
  description : Str
  video_url : Str
  duration : Str
  views : Nat
deriving DecidableEq

/-- One scored entry of the `results` list built by the search: the dict the
code appends for a text / image hit, or the video dict enriched with its
score. -/
inductive ResultItem where
  | text (content source page : Str) (score : ℚ)
  | image (image_url description source page : Str) (score : ℚ)
  | video (v : VideoRec) (score : ℚ)
deriving DecidableEq

/-- The `"score"` field of a result entry. -/
def ResultItem.score : ResultItem → ℚ
  | .text _ _ _ s => s
  | .image _ _ _ _ s => s
  | .video _ s => s

/-- Whether the entry has `"type" == "video"`. -/
def ResultItem.isVideo : ResultItem → Bool
  | .video _ _ => true
  | _ => false

/-- One step of Python `max(results, key=lambda x: x["score"])`: the running
maximum is replaced only on a strictly greater score, so the first maximal
element wins ties. -/
def pickMax (best : ResultItem) : List ResultItem → ResultItem
  | [] => best
  | x :: xs => pickMax (if x.score > best.score then x else best) xs

/-- Python `max(results, key=lambda x: x["score"])`, `none` on an empty
list. -/
def maxByScore : List ResultItem → Option ResultItem
  | [] => none
  | r :: rs => some (pickMax r rs)

/-- The per-request repository snapshot: each collection stream either raises
(`Except.error`) or yields its documents. -/
structure Repo where
  texts : Except Unit (List TextRec)
  images : Except Unit (List ImageRec)
  videos : Except Unit (List VideoRec)

/-- The searchable text of a video: `f"{title} {description}"`. -/
def videoSearchText (v : VideoRec) : Str := v.title ++ " ".toList ++ v.description

/-- The per-document body of the `search_videos` loop (webhook.py lines
118-140): score the combined title and description and keep the video iff the
score strictly exceeds `VIDEO_THRESHOLD`. -/
def processVideoDoc (query : Str) (v : VideoRec) : Option ResultItem :=
  let score := calculate_tfidf_score query (videoSearchText v)
  if score > VIDEO_THRESHOLD then some (.video v score) else none

/-- `search_videos(query)` (webhook.py lines 108-147): a failed stream is
caught and returns the empty list. -/
def search_videos (query : Str) (fetched : Except Unit (List VideoRec)) : List ResultItem :=
  match fetched with
  | .error _ => []
  | .ok docs => docs.filterMap (processVideoDoc query)

/-- `any(word in query.lower() for word in ['video', 'watch', 'play', 'show
video'])` (webhook.py line 154 and line 268). -/
def is_video_request (query : Str) : Bool :=
  ["video".toList, "watch".toList, "play".toList, "show video".toList].any
    (fun w => substrB w (lowerStr query))

/-- The per-document body of the text loop (webhook.py lines 171-183). -/
def processTextDoc (query : Str) (d : TextRec) : Option ResultItem :=
  let score := calculate_tfidf_score query d.content
  if score > TEXT_THRESHOLD then some (.text d.content d.source_file d.page score) else none

/-- `data.get("description", f"Image from {source_file} page {page}")`
(webhook.py lines 202-203). -/
def imageDescription (d : ImageRec) : Str :=
  match d.description with
  | some s => s
  | none => "Image from ".toList ++ d.source_file ++ " page ".toList ++ d.page

/-- The per-document body of the image loop (webhook.py lines 189-214):
records with an empty `image_path`, or for which no public URL can be
produced, are skipped before scoring. -/
def processImageDoc (query : Str) (now : Nat) (d : ImageRec) : Option ResultItem :=
  if d.image_path = [] then none
  else
    match get_public_url d.image_path now with
    | none => none
    | some url =>
      let descr := imageDescription d
      let score := calculate_tfidf_score query descr
      if score > IMAGE_THRESHOLD then some (.image url descr d.source_file d.page score)
      else none

/-- The text candidates gathered by the general search; a failed stream is
caught by the surrounding `try/except` and contributes nothing (webhook.py
lines 169-185). -/
def textCands (query : Str) (repo : Repo) : List ResultItem :=
  match repo.texts with
  | .error _ => []
  | .ok docs => docs.filterMap (processTextDoc query)

/-- The image candidates gathered by the general search; a failed stream is
caught and contributes nothing (webhook.py lines 187-216). -/
def imageCands (query : Str) (repo : Repo) (now : Nat) : List ResultItem :=
  match repo.images with
  | .error _ => []
  | .ok docs => docs.filterMap (processImageDoc query now)

/-- `search_content_with_retry(query)` (webhook.py lines 149-229). The retry
decorator is invisible here: every fallible step inside the function is
already wrapped in its own `try/except`, so one pass is deterministic. The
forced-intent branch returns the best thresholded video when the query is a
video request and `search_videos` found anything; otherwise the general pool
is built in the order text, image, then (only for non-video-intent queries)
video, and the first maximal entry wins. -/
def search_content_with_retry (query : Str) (repo : Repo) (now : Nat) : Option ResultItem :=
  let ivr := is_video_request query
  let forced := if ivr then maxByScore (search_videos query repo.videos) else none
  match forced with
  | some r => some r
  | none =>
    let results := textCands query repo ++ imageCands query repo now
      ++ (if ivr then [] else search_videos query repo.videos)
    maxByScore results

/-- The uniform error payload of `error_response` (webhook.py lines 394-409):
`has_image` and `has_video` are always `False` and the message is prefixed
with `"Error: "`. -/
structure ErrorPayload where
  has_image : Bool
  has_video : Bool
  message : Str
deriving DecidableEq

/-- `error_response(message, status_code)` without the status (carried
separately by the route result). -/
def error_response (message : Str) : ErrorPayload :=
  { has_image := false, has_video := false, message := "Error: ".toList ++ message }

/-- Python `s.strip()` (ASCII whitespace). -/
def pyStrip (s : Str) : Str :=
  ((s.dropWhile Char.isWhitespace).reverse.dropWhile Char.isWhitespace).reverse

/-- What the `/webhook` route returns for one request: a success payload
built from the selected result, or an error payload with its HTTP status. -/
inductive WebhookResponse where
  | success (item : ResultItem) (query : Str)
  | failure (payload : ErrorPayload) (status : Nat)
deriving DecidableEq

/-- The `/webhook` route body after query extraction (webhook.py lines
261-289): trim, reject the empty query with a 400, force the video branch on
video intent, otherwise run the general search, mapping `None` to a 404. -/
def webhook (rawQuery : Str) (repo : Repo) (now : Nat) : WebhookResponse :=
  let query := pyStrip rawQuery
  if query = [] then .failure (error_response "Invalid query".toList) 400
  else
    let forcedVideo :=
      if is_video_request query then maxByScore (search_videos query repo.videos) else none
    match forcedVideo with
    | some v => .success v query
    | none =>
      match search_content_with_retry query repo now with
      | some r => .success r query
      | none => .failure (error_response "No results found".toList) 404

/-! ## Concrete test fixtures used by witnesses and counterexamples -/

/-- An empty, healthy repository. -/
def repoEmpty : Repo := Repo.mk (Except.ok []) (Except.ok []) (Except.ok [])

/-- C1 counterexample query: an explicit video request. -/
def q1 : Str := "play the demo video".toList

/-- C1 counterexample video: exists in the repository but shares no word
with the query, so it scores 0 and is dropped by `search_videos`. -/
def v1 : VideoRec := VideoRec.mk "zzz".toList "qqq".toList "http://v".toList "1:00".toList 7

/-- C1 counterexample text document: scores 1/4 against the query. -/
def t1 : TextRec := TextRec.mk "the demo".toList "doc.pdf".toList "1".toList

/-- C1 counterexample repository. -/
def repo1 : Repo := Repo.mk (Except.ok [t1]) (Except.ok []) (Except.ok [v1])

/-- C1 witness query. -/
def q1w : Str := "play alpha".toList

/-- C1 witness video: scores 3/2. -/
def v1w : VideoRec := VideoRec.mk "play alpha".toList [] "http://w".toList "2:00".toList 9

/-- C1 witness text document: scores 11/6, strictly more than the video. -/
def t1w : TextRec := TextRec.mk "title play alpha".toList "a.pdf".toList "1".toList

/-- C1 witness repository. -/
def repo1w : Repo := Repo.mk (Except.ok [t1w]) (Except.ok []) (Except.ok [v1w])

/-- C2 query: not a video request. -/
def q2 : Str := "alpha".toList

/-- C2 text document: scores exactly 2. -/
def t2 : TextRec := TextRec.mk "alpha".toList "t.pdf".toList "1".toList

/-- C2 video: also scores exactly 2 — an exact tie with the text. -/
def v2 : VideoRec := VideoRec.mk "alpha".toList [] "http://v2".toList "0:30".toList 3

/-- C2 repository. -/
def repo2 : Repo := Repo.mk (Except.ok [t2]) (Except.ok []) (Except.ok [v2])

/-- C5 witness query: a video request. -/
def q5 : Str := "show video".toList

/-- C5 witness text document: scores exactly 3/10 against `q5`. -/
def t5 : TextRec := TextRec.mk "video show show aa bb".toList "r.pdf".toList "2".toList

/-- C5 witness repository: no videos at all. -/
def repo5 : Repo := Repo.mk (Except.ok [t5]) (Except.ok []) (Except.ok [])

/-- C6 query. -/
def q6 : Str := "aa bb".toList

/-- C6 document scoring exactly `TEXT_THRESHOLD`: one of ten tokens matches
one of the two unique query words, giving (1/10)/2 = 1/20 = 0.05. -/
def d6a : TextRec := TextRec.mk "aa x1 x2 x3 x4 x5 x6 x7 x8 x9".toList "b.pdf".toList "4".toList

/-- C6 document scoring (1/9)/2 = 1/18, strictly above the threshold. -/
def d6b : TextRec := TextRec.mk "aa x1 x2 x3 x4 x5 x6 x7 x8".toList "b.pdf".toList "5".toList

/-- C10 witness image document: empty `image_path` but a description fully
relevant to the query. -/
def d10 : ImageRec :=
  ImageRec.mk [] (some "revenue growth chart".toList) "report.pdf".toList "3".toList

/-! ## Helper lemmas about the scorer -/

/-- Distributing a constant divisor out of a mapped sum. -/
theorem sum_map_div (l : List Str) (f : Str → ℚ) (N : ℚ) :
    (l.map (fun w => f w / N)).sum = (l.map f).sum / N := by
  induction l with
  | nil => simp
  | cons a t ih => simp [ih, add_div]

/-- Closed form of the scorer on inputs that pass both emptiness guards:
the natural-number sum of kept frequencies, divided by the token count and
the unique-query-word count, plus the two bonuses. -/
theorem calculate_tfidf_score_eq (query text : Str)
    (hq : query ≠ []) (ht : text ≠ [])
    (hqw : (findWords (lowerStr query)).dedup ≠ [])
    (htw : findWords (lowerStr text) ≠ []) :
    calculate_tfidf_score query text =
      (((((findWords (lowerStr query)).dedup.filter
          (fun w => (findWords (lowerStr text)).count w != 0)).map
          (fun w => (findWords (lowerStr text)).count w)).sum : ℚ)
        / ((findWords (lowerStr text)).length : ℚ))
        / (((findWords (lowerStr query)).dedup.length : ℚ))
      + (if substrB (lowerStr query) (lowerStr text) then 1 else 0)
      + (if substrB "title".toList (lowerStr text)
            && (findWords (lowerStr query)).dedup.any (fun w => substrB w (lowerStr text))
         then (1 : ℚ) / 2 else 0) := by
  rw [calculate_tfidf_score, if_neg (not_or.mpr ⟨hq, ht⟩)]
  simp only
  rw [if_neg (not_or.mpr ⟨hqw, htw⟩)]
  congr 2
  rw [sum_map_div, Nat.cast_list_sum, List.map_map]
  rfl

/-- Evaluation form of the scorer: once the combinatorial pieces are computed
(by `decide`) the score is plain rational arithmetic. -/
theorem score_eval (query text : Str) (S N Q : ℕ) (e b : Bool)
    (hq : query ≠ []) (ht : text ≠ [])
    (hqw : (findWords (lowerStr query)).dedup ≠ [])
    (htw : findWords (lowerStr text) ≠ [])
    (hS : (((findWords (lowerStr query)).dedup.filter
        (fun w => (findWords (lowerStr text)).count w != 0)).map
        (fun w => (findWords (lowerStr text)).count w)).sum = S)
    (hN : (findWords (lowerStr text)).length = N)
    (hQ : (findWords (lowerStr query)).dedup.length = Q)
    (he : substrB (lowerStr query) (lowerStr text) = e)
    (hb : (substrB "title".toList (lowerStr text)
        && (findWords (lowerStr query)).dedup.any (fun w => substrB w (lowerStr text))) = b) :
    calculate_tfidf_score query text =
      (S : ℚ) / (N : ℚ) / (Q : ℚ) + (if e then 1 else 0) + (if b then (1 : ℚ) / 2 else 0) := by
  rw [calculate_tfidf_score_eq query text hq ht hqw htw, hS, hN, hQ, he, hb]

/-- The scorer never returns a negative value. -/
theorem calculate_tfidf_score_nonneg (query text : Str) :
    0 ≤ calculate_tfidf_score query text := by
  by_cases h1 : query = [] ∨ text = []
  · rw [calculate_tfidf_score, if_pos h1]
  · by_cases h2 : (findWords (lowerStr query)).dedup = [] ∨ findWords (lowerStr text) = []
    · rw [calculate_tfidf_score, if_neg h1]
      simp only
      rw [if_pos h2]
    · push_neg at h1 h2
      rw [calculate_tfidf_score_eq query text h1.1 h1.2 h2.1 h2.2]
      refine add_nonneg (add_nonneg ?_ ?_) ?_
      · positivity
      · split <;> norm_num
      · split <;> norm_num

/-! ## Helper lemmas about tokenization and substrings -/

/-- Under the fuel invariant, the tokenizer returns no word exactly when the
input has no word character. -/
theorem tokenizeAux_eq_nil_iff (fuel : ℕ) :
    ∀ s : Str, s.length ≤ fuel →
      (tokenizeAux fuel s = [] ↔ ∀ c ∈ s, isWordChar c = false) := by
  induction fuel with
  | zero =>
    intro s hs
    have hnil : s = [] := List.length_eq_zero.mp (Nat.le_zero.mp hs)
    subst hnil
    simp [tokenizeAux]
  | succ n ih =>
    intro s hs
    match s with
    | [] => simp [tokenizeAux]
    | c :: cs =>
      rw [tokenizeAux]
      by_cases h : isWordChar c = true
      · simp [h]
      · have hfalse : isWordChar c = false := by simpa using h
        rw [if_neg h, ih cs (by simpa using Nat.le_of_succ_le_succ hs)]
        simp [hfalse]

/-- `re.findall(r'\w+', s)` is empty exactly when `s` has no word
character. -/
theorem findWords_eq_nil_iff (s : Str) :
    findWords s = [] ↔ ∀ c ∈ s, isWordChar c = false :=
  tokenizeAux_eq_nil_iff s.length s le_rfl

/-- Characters of a prefix are characters of the whole string. -/
theorem startsWithB_subset {q : Str} :
    ∀ {t : Str}, startsWithB q t = true → ∀ c ∈ q, c ∈ t := by
  induction q with
  | nil => intro t _ c hc; exact absurd hc (List.not_mem_nil c)
  | cons a as ih =>
    intro t h c hc
    match t with
    | [] => exact absurd h (by simp [startsWithB])
    | b :: bs =>
      rw [startsWithB, Bool.and_eq_true] at h
      obtain ⟨h1, h2⟩ := h
      rcases List.mem_cons.mp hc with rfl | hc2
      · rw [show c = b from eq_of_beq h1]
        exact List.mem_cons_self b bs
      · exact List.mem_cons_of_mem b (ih h2 c hc2)

/-- Characters of a contiguous substring are characters of the whole
string. -/
theorem substrB_subset {q : Str} :
    ∀ {t : Str}, substrB q t = true → ∀ c ∈ q, c ∈ t := by
  intro t
  induction t with
  | nil =>
    intro h c hc
    match q, h with
    | [], _ => exact absurd hc (List.not_mem_nil c)
  | cons b bs ih =>
    intro h c hc
    rw [substrB, Bool.or_eq_true] at h
    rcases h with h1 | h2
    · exact startsWithB_subset h1 c hc
    · exact List.mem_cons_of_mem b (ih h2 c hc)

/-! ## Helper lemmas about the first-maximum selection -/

/-- The running maximum is one of the inputs. -/
theorem pickMax_mem (l : List ResultItem) : ∀ best, pickMax best l ∈ best :: l := by
  induction l with
  | nil => intro best; simp [pickMax]
  | cons x xs ih =>
    intro best
    rw [pickMax]
    by_cases hc : x.score > best.score
    · rw [if_pos hc]
      rcases List.mem_cons.mp (ih x) with h | h
      · rw [h]; exact List.mem_cons_of_mem _ (List.mem_cons_self _ _)
      · exact List.mem_cons_of_mem _ (List.mem_cons_of_mem _ h)
    · rw [if_neg hc]
      rcases List.mem_cons.mp (ih best) with h | h
      · rw [h]; exact List.mem_cons_self _ _
      · exact List.mem_cons_of_mem _ (List.mem_cons_of_mem _ h)

/-- Every input's score is at most the running maximum's. -/
theorem pickMax_le (l : List ResultItem) :
    ∀ best, ∀ x ∈ best :: l, x.score ≤ (pickMax best l).score := by
  induction l with
  | nil =>
    intro best x hx
    rw [List.mem_singleton] at hx
    rw [hx, pickMax]
  | cons y ys ih =>
    intro best x hx
    rw [pickMax]
    by_cases hc : y.score > best.score
    · rw [if_pos hc]
      rcases List.mem_cons.mp hx with h | hx2
      · rw [h]
        exact le_trans (le_of_lt hc) (ih y y (List.mem_cons_self _ _))
      · exact ih y x hx2
    · rw [if_neg hc]
      push_neg at hc
      rcases List.mem_cons.mp hx with h | hx2
      · rw [h]
        exact ih best best (List.mem_cons_self _ _)
      · rcases List.mem_cons.mp hx2 with h2 | hx3
        · rw [h2]
          exact le_trans hc (ih best best (List.mem_cons_self _ _))
        · exact ih best x (List.mem_cons_of_mem _ hx3)

/-- `max` with a strict-greater update keeps the FIRST maximal element:
the input splits around the returned element and everything before it scores
strictly less. -/
theorem pickMax_first (l : List ResultItem) :
    ∀ best, ∃ l1 l2, best :: l = l1 ++ (pickMax best l) :: l2 ∧
      ∀ x ∈ l1, x.score < (pickMax best l).score := by
  induction l with
  | nil => intro best; exact ⟨[], [], by simp [pickMax], by simp⟩
  | cons y ys ih =>
    intro best
    rw [pickMax]
    by_cases hc : y.score > best.score
    · rw [if_pos hc]
      obtain ⟨l1, l2, heq, hlt⟩ := ih y
      refine ⟨best :: l1, l2, ?_, ?_⟩
      · rw [List.cons_append, ← heq]
      · intro x hx
        rcases List.mem_cons.mp hx with h | hx2
        · rw [h]
          exact lt_of_lt_of_le hc (pickMax_le ys y y (List.mem_cons_self _ _))
        · exact hlt x hx2
    · rw [if_neg hc]
      push_neg at hc
      obtain ⟨l1, l2, heq, hlt⟩ := ih best
      match l1, heq, hlt with
      | [], heq, _ =>
        rw [List.nil_append] at heq
        injection heq with h1 h2
        refine ⟨[], y :: ys, ?_, by simp⟩
        rw [List.nil_append, ← h1]
      | a :: m, heq, hlt =>
        rw [List.cons_append] at heq
        injection heq with h1 h2
        refine ⟨best :: y :: m, l2, ?_, ?_⟩
        · rw [List.cons_append, List.cons_append]
          exact congrArg (fun t => best :: y :: t) h2
        · intro x hx
          rw [← h1] at hlt
          rcases List.mem_cons.mp hx with h | hx2
          · rw [h]
            exact hlt best (List.mem_cons_self _ _)
          · rcases List.mem_cons.mp hx2 with h2m | hx3
            · rw [h2m]
              exact lt_of_le_of_lt hc (hlt best (List.mem_cons_self _ _))
            · exact hlt x (List.mem_cons_of_mem _ hx3)

/-- `maxByScore` of a nonempty list picks the first maximal element. -/
theorem maxByScore_spec {l : List ResultItem} {r : ResultItem}
    (h : maxByScore l = some r) :
    r ∈ l ∧ (∀ x ∈ l, x.score ≤ r.score) ∧
      ∃ l1 l2, l = l1 ++ r :: l2 ∧ ∀ x ∈ l1, x.score < r.score := by
  match l, h with
  | a :: as, h =>
    rw [maxByScore] at h
    injection h with h
    subst h
    exact ⟨pickMax_mem as a, pickMax_le as a, pickMax_first as a⟩

/-! ## Helper lemmas about the candidate pools -/

/-- What a kept text document looks like: it is a text entry carrying its
own score, and that score strictly exceeds `TEXT_THRESHOLD`. -/
theorem processTextDoc_out {query : Str} {d : TextRec} {x : ResultItem}
    (h : processTextDoc query d = some x) :
    x = ResultItem.text d.content d.source_file d.page (calculate_tfidf_score query d.content)
      ∧ TEXT_THRESHOLD < calculate_tfidf_score query d.content := by
  simp only [processTextDoc] at h
  split at h
  · exact ⟨(Option.some.injEq _ _ ▸ h).symm, by assumption⟩
  · exact absurd h (Option.noConfusion)

/-- What a kept video document looks like. -/
theorem processVideoDoc_out {query : Str} {v : VideoRec} {x : ResultItem}
    (h : processVideoDoc query v = some x) :
    x = ResultItem.video v (calculate_tfidf_score query (videoSearchText v))
      ∧ VIDEO_THRESHOLD < calculate_tfidf_score query (videoSearchText v) := by
  simp only [processVideoDoc] at h
  split at h
  · exact ⟨(Option.some.injEq _ _ ▸ h).symm, by assumption⟩
  · exact absurd h (Option.noConfusion)

/-- What a kept image document looks like: an image entry whose score
strictly exceeds `IMAGE_THRESHOLD`, and the document had a nonempty path. -/
theorem processImageDoc_out {query : Str} {now : Nat} {d : ImageRec} {x : ResultItem}
    (h : processImageDoc query now d = some x) :
    d.image_path ≠ [] ∧
      x = ResultItem.image
        ("https://storage.googleapis.com/".toList ++ BUCKET_NAME ++ "/".toList
          ++ pyQuote d.image_path ++ "?t=".toList ++ (toString now).toList)
        (imageDescription d) d.source_file d.page
        (calculate_tfidf_score query (imageDescription d))
      ∧ IMAGE_THRESHOLD < calculate_tfidf_score query (imageDescription d) := by
  simp only [processImageDoc] at h
  split at h
  · exact absurd h (Option.noConfusion)
  · rename_i hpath
    rw [get_public_url, if_neg hpath] at h
    simp only at h
    split at h
    · exact ⟨hpath, (Option.some.injEq _ _ ▸ h).symm, by assumption⟩
    · exact absurd h (Option.noConfusion)

/-- Members of the text pool are text entries above the text threshold. -/
theorem mem_textCands {query : Str} {repo : Repo} {x : ResultItem}
    (hx : x ∈ textCands query repo) :
    x.isVideo = false ∧ TEXT_THRESHOLD < x.score := by
  rw [textCands] at hx
  split at hx
  · exact absurd hx (List.not_mem_nil x)
  · obtain ⟨d, _, hd⟩ := List.mem_filterMap.mp hx
    obtain ⟨hform, hthr⟩ := processTextDoc_out hd
    subst hform
    exact ⟨rfl, hthr⟩

/-- Members of the image pool are image entries above the image threshold. -/
theorem mem_imageCands {query : Str} {repo : Repo} {now : Nat} {x : ResultItem}
    (hx : x ∈ imageCands query repo now) :
    x.isVideo = false ∧ IMAGE_THRESHOLD < x.score := by
  rw [imageCands] at hx
  split at hx
  · exact absurd hx (List.not_mem_nil x)
  · obtain ⟨d, _, hd⟩ := List.mem_filterMap.mp hx
    obtain ⟨_, hform, hthr⟩ := processImageDoc_out hd
    subst hform
    exact ⟨rfl, hthr⟩

/-- Members of the video pool are video entries above the video threshold. -/
theorem mem_search_videos {query : Str} {fetched : Except Unit (List VideoRec)} {x : ResultItem}
    (hx : x ∈ search_videos query fetched) :
    x.isVideo = true ∧ VIDEO_THRESHOLD < x.score := by
  rw [search_videos.eq_def] at hx
  split at hx
  · exact absurd hx (List.not_mem_nil x)
  · obtain ⟨v, _, hv⟩ := List.mem_filterMap.mp hx
    obtain ⟨hform, hthr⟩ := processVideoDoc_out hv
    subst hform
    exact ⟨rfl, hthr⟩

/-! ## Helper lemmas about the two selection branches -/

/-- Forced-intent branch: on a video request for which `search_videos`
returned at least one thresholded candidate, the search returns the first
maximal video and never looks at the other pools. -/
theorem search_content_forced {query : Str} {repo : Repo} (now : Nat)
    (hivr : is_video_request query = true)
    (hv : search_videos query repo.videos ≠ []) :
    search_content_with_retry query repo now =
      maxByScore (search_videos query repo.videos) := by
  rw [search_content_with_retry]
  simp only [hivr, if_true]
  match hvs : search_videos query repo.videos, hv with
  | v :: vs, _ => rw [maxByScore]

/-- General branch: when the forced branch does not fire, the search selects
over the concatenated pool text ++ image ++ (video only without video
intent). -/
theorem search_content_general {query : Str} {repo : Repo} (now : Nat)
    (h : (if is_video_request query then maxByScore (search_videos query repo.videos)
          else none) = none) :
    search_content_with_retry query repo now =
      maxByScore (textCands query repo ++ imageCands query repo now
        ++ (if is_video_request query then [] else search_videos query repo.videos)) := by
  rw [search_content_with_retry]
  simp only [h]

/-! ## Evaluation helpers for concrete repositories -/

/-- A text document whose known score clears the threshold is kept. -/
theorem processTextDoc_pos {query : Str} {d : TextRec} {s : ℚ}
    (hs : calculate_tfidf_score query d.content = s) (h : TEXT_THRESHOLD < s) :
    processTextDoc query d = some (ResultItem.text d.content d.source_file d.page s) := by
  simp only [processTextDoc, hs]
  rw [if_pos h]

/-- A video whose known score clears the threshold is kept. -/
theorem processVideoDoc_pos {query : Str} {v : VideoRec} {s : ℚ}
    (hs : calculate_tfidf_score query (videoSearchText v) = s) (h : VIDEO_THRESHOLD < s) :
    processVideoDoc query v = some (ResultItem.video v s) := by
  simp only [processVideoDoc, hs]
  rw [if_pos h]

/-- A video whose known score does not clear the threshold is dropped. -/
theorem processVideoDoc_neg {query : Str} {v : VideoRec} {s : ℚ}
    (hs : calculate_tfidf_score query (videoSearchText v) = s) (h : ¬ VIDEO_THRESHOLD < s) :
    processVideoDoc query v = none := by
  simp only [processVideoDoc, hs]
  rw [if_neg h]

/-! ## The claims -/

/-- Claim C7: the scorer never returns a negative value, and returns exactly
zero whenever either argument is the empty string. -/
theorem C7_score_nonneg_and_empty_zero (q t : Str) :
    0 ≤ calculate_tfidf_score q t ∧
    calculate_tfidf_score q [] = 0 ∧
    calculate_tfidf_score [] t = 0 := by
  refine ⟨calculate_tfidf_score_nonneg q t, ?_, ?_⟩
  · rw [calculate_tfidf_score, if_pos (Or.inr rfl)]
  · rw [calculate_tfidf_score, if_pos (Or.inl rfl)]

/-- Claim C3 counterexample: for the empty query, the lowered query is a
substring of the lowered text `"a"` (Python `"" in s` is `True`), yet the
score is 0, not at least 1. -/
theorem C3_counterexample :
    substrB (lowerStr []) (lowerStr "a".toList) = true ∧
    calculate_tfidf_score [] "a".toList = 0 ∧
    ¬ (1 ≤ calculate_tfidf_score [] "a".toList) := by
  refine ⟨by decide, ?_, ?_⟩
  · rw [calculate_tfidf_score, if_pos (Or.inl rfl)]
  · rw [calculate_tfidf_score, if_pos (Or.inl rfl)]
    norm_num

/-- Claim C3 (amended): if the query contains at least one word character
(its lowered form tokenizes to a nonempty word list) and the lowered query
occurs as a substring of the lowered text, then the score is at least 1. -/
theorem C3_exact_substring_score (q t : Str)
    (hq : findWords (lowerStr q) ≠ [])
    (hsub : substrB (lowerStr q) (lowerStr t) = true) :
    1 ≤ calculate_tfidf_score q t := by
  obtain ⟨c, hc, hw⟩ : ∃ c ∈ lowerStr q, isWordChar c = true := by
    by_contra hnone
    push_neg at hnone
    exact hq ((findWords_eq_nil_iff (lowerStr q)).mpr
      (fun c hc => by simpa using hnone c hc))
  have hct : c ∈ lowerStr t := substrB_subset hsub c hc
  have hqne : q ≠ [] := by
    intro h
    subst h
    simp [lowerStr] at hc
  have htne : t ≠ [] := by
    intro h
    subst h
    simp [lowerStr] at hct
  have htd : findWords (lowerStr t) ≠ [] := by
    intro h
    rw [findWords_eq_nil_iff] at h
    rw [h c hct] at hw
    exact Bool.noConfusion hw
  have hqd : (findWords (lowerStr q)).dedup ≠ [] := by
    simpa [List.dedup_eq_nil] using hq
  rw [calculate_tfidf_score_eq q t hqne htne hqd htd, if_pos hsub]
  have hbase : 0 ≤
      (((((findWords (lowerStr q)).dedup.filter
          (fun w => (findWords (lowerStr t)).count w != 0)).map
          (fun w => (findWords (lowerStr t)).count w)).sum : ℚ)
        / ((findWords (lowerStr t)).length : ℚ))
        / (((findWords (lowerStr q)).dedup.length : ℚ)) := by positivity
  have htitle : (0 : ℚ) ≤
      (if substrB "title".toList (lowerStr t)
          && (findWords (lowerStr q)).dedup.any (fun w => substrB w (lowerStr t))
       then (1 : ℚ) / 2 else 0) := by
    split <;> norm_num
  linarith

/-- Claim C3 witness: the single-word query "Revenue" occurs case-folded in
"quarterly revenue growth", so its score reaches 1. -/
theorem C3_witness :
    findWords (lowerStr "Revenue".toList) ≠ [] ∧
    substrB (lowerStr "Revenue".toList) (lowerStr "quarterly revenue growth".toList) = true ∧
    1 ≤ calculate_tfidf_score "Revenue".toList "quarterly revenue growth".toList :=
  ⟨by decide, by decide, C3_exact_substring_score _ _ (by decide) (by decide)⟩

/-- Claim C6: the text threshold is exclusive — a document scoring exactly
`TEXT_THRESHOLD` is dropped, one scoring strictly more is kept with its
score, and every member of the text pool strictly exceeds the threshold. -/
theorem C6_text_threshold_exclusive (query : Str) (d : TextRec) (repo : Repo) :
    (calculate_tfidf_score query d.content = TEXT_THRESHOLD →
      processTextDoc query d = none) ∧
    (TEXT_THRESHOLD < calculate_tfidf_score query d.content →
      processTextDoc query d =
        some (ResultItem.text d.content d.source_file d.page
          (calculate_tfidf_score query d.content))) ∧
    (∀ x ∈ textCands query repo, TEXT_THRESHOLD < x.score) := by
  refine ⟨?_, ?_, fun x hx => (mem_textCands hx).2⟩
  · intro h
    simp only [processTextDoc, h]
    rw [if_neg (lt_irrefl TEXT_THRESHOLD)]
  · intro h
    simp only [processTextDoc]
    rw [if_pos h]

/-- Claim C8: a failed fetch of any single content type is equivalent to
that type contributing zero candidates — the search result is unchanged when
the failing fetch is replaced by an empty collection, for each of the three
types. -/
theorem C8_fetch_failure_is_empty (query : Str) (repo : Repo) (now : Nat) :
    search_content_with_retry query (Repo.mk (Except.error ()) repo.images repo.videos) now
      = search_content_with_retry query (Repo.mk (Except.ok []) repo.images repo.videos) now ∧
    search_content_with_retry query (Repo.mk repo.texts (Except.error ()) repo.videos) now
      = search_content_with_retry query (Repo.mk repo.texts (Except.ok []) repo.videos) now ∧
    search_content_with_retry query (Repo.mk repo.texts repo.images (Except.error ())) now
      = search_content_with_retry query (Repo.mk repo.texts repo.images (Except.ok [])) now := by
  refine ⟨?_, ?_, ?_⟩ <;>
    simp [search_content_with_retry, textCands, imageCands, search_videos]

/-- Claim C9: a request whose query is empty after trimming is rejected with
the 400 "Invalid query" error, independently of the repository (so before
any candidate fetching), and the error payload has `has_image = false` and
`has_video = false` together with its message. -/
theorem C9_empty_query_rejected (rawQuery : Str) (repo : Repo) (now : Nat)
    (h : pyStrip rawQuery = []) :
    webhook rawQuery repo now =
      WebhookResponse.failure (error_response "Invalid query".toList) 400 ∧
    (error_response "Invalid query".toList).has_image = false ∧
    (error_response "Invalid query".toList).has_video = false ∧
    (error_response "Invalid query".toList).message = "Error: Invalid query".toList := by
  refine ⟨?_, rfl, rfl, by decide⟩
  rw [webhook]
  simp [h]

/-- Claim C9 witness: a whitespace-only query, against a concrete
repository. -/
theorem C9_witness :
    pyStrip "   ".toList = [] ∧
    webhook "   ".toList repoEmpty 0 =
      WebhookResponse.failure (error_response "Invalid query".toList) 400 :=
  ⟨by decide, (C9_empty_query_rejected "   ".toList repoEmpty 0 (by decide)).1⟩

/-- Claim C10: an image document whose `image_path` is missing/empty, or for
which no public URL is produced, is skipped before scoring, regardless of
its description. -/
theorem C10_image_path_guard (query : Str) (now : Nat) (d : ImageRec)
    (h : d.image_path = [] ∨ get_public_url d.image_path now = none) :
    processImageDoc query now d = none := by
  rcases h with h | h
  · rw [processImageDoc, if_pos h]
  · by_cases hp : d.image_path = []
    · rw [processImageDoc, if_pos hp]
    · rw [get_public_url, if_neg hp] at h
      exact absurd h (Option.noConfusion)

/-- Claim C10 witness: a pathless image document with a fully relevant
description still yields no candidate. -/
theorem C10_witness :
    (d10.image_path = [] ∨ get_public_url d10.image_path 0 = none) ∧
    d10.description = some "revenue growth chart".toList ∧
    processImageDoc "revenue growth".toList 0 d10 = none :=
  ⟨Or.inl rfl, rfl, C10_image_path_guard "revenue growth".toList 0 d10 (Or.inl rfl)⟩

/-! ## Concrete score evaluations -/

/-- "play the demo video" against the C1 video "zzz qqq" scores 0. -/
theorem e_q1_v1 : calculate_tfidf_score q1 (videoSearchText v1) = 0 := by
  rw [score_eval q1 (videoSearchText v1) 0 2 4 false false (by decide) (by decide) (by decide)
    (by decide) (by decide) (by decide) (by decide) (by decide) (by decide)]
  norm_num

/-- "play the demo video" against "the demo" scores 1/4. -/
theorem e_q1_t1 : calculate_tfidf_score q1 t1.content = 1 / 4 := by
  rw [score_eval q1 t1.content 2 2 4 false false (by decide) (by decide) (by decide)
    (by decide) (by decide) (by decide) (by decide) (by decide) (by decide)]
  norm_num

/-- "play alpha" against the witness video "play alpha" scores 3/2. -/
theorem e_q1w_v1w : calculate_tfidf_score q1w (videoSearchText v1w) = 3 / 2 := by
  rw [score_eval q1w (videoSearchText v1w) 2 2 2 true false (by decide) (by decide) (by decide)
    (by decide) (by decide) (by decide) (by decide) (by decide) (by decide)]
  norm_num

/-- "play alpha" against "title play alpha" scores 11/6. -/
theorem e_q1w_t1w : calculate_tfidf_score q1w t1w.content = 11 / 6 := by
  rw [score_eval q1w t1w.content 2 3 2 true true (by decide) (by decide) (by decide)
    (by decide) (by decide) (by decide) (by decide) (by decide) (by decide)]
  norm_num

/-- "alpha" against the text "alpha" scores 2. -/
theorem e_q2_t2 : calculate_tfidf_score q2 t2.content = 2 := by
  rw [score_eval q2 t2.content 1 1 1 true false (by decide) (by decide) (by decide)
    (by decide) (by decide) (by decide) (by decide) (by decide) (by decide)]
  norm_num

/-- "alpha" against the video titled "alpha" also scores 2. -/
theorem e_q2_v2 : calculate_tfidf_score q2 (videoSearchText v2) = 2 := by
  rw [score_eval q2 (videoSearchText v2) 1 1 1 true false (by decide) (by decide) (by decide)
    (by decide) (by decide) (by decide) (by decide) (by decide) (by decide)]
  norm_num

/-- "show video" against "video show show aa bb" scores 3/10. -/
theorem e_q5_t5 : calculate_tfidf_score q5 t5.content = 3 / 10 := by
  rw [score_eval q5 t5.content 3 5 2 false false (by decide) (by decide) (by decide)
    (by decide) (by decide) (by decide) (by decide) (by decide) (by decide)]
  norm_num

/-- "aa bb" against the ten-token document scores exactly 1/20. -/
theorem e_q6_a : calculate_tfidf_score q6 d6a.content = 1 / 20 := by
  rw [score_eval q6 d6a.content 1 10 2 false false (by decide) (by decide) (by decide)
    (by decide) (by decide) (by decide) (by decide) (by decide) (by decide)]
  norm_num

/-- "aa bb" against the nine-token document scores 1/18. -/
theorem e_q6_b : calculate_tfidf_score q6 d6b.content = 1 / 18 := by
  rw [score_eval q6 d6b.content 1 9 2 false false (by decide) (by decide) (by decide)
    (by decide) (by decide) (by decide) (by decide) (by decide) (by decide)]
  norm_num

/-- Claim C6 witness: with query "aa bb", the document scoring exactly 0.05
is excluded while the one scoring 1/18 is included. -/
theorem C6_witness :
    calculate_tfidf_score q6 d6a.content = TEXT_THRESHOLD ∧
    processTextDoc q6 d6a = none ∧
    TEXT_THRESHOLD < calculate_tfidf_score q6 d6b.content ∧
    processTextDoc q6 d6b =
      some (ResultItem.text d6b.content d6b.source_file d6b.page
        (calculate_tfidf_score q6 d6b.content)) := by
  have ha : calculate_tfidf_score q6 d6a.content = TEXT_THRESHOLD := by
    rw [e_q6_a, TEXT_THRESHOLD]
  have hb : TEXT_THRESHOLD < calculate_tfidf_score q6 d6b.content := by
    rw [e_q6_b, TEXT_THRESHOLD]
    norm_num
  exact ⟨ha, (C6_text_threshold_exclusive q6 d6a repoEmpty).1 ha, hb,
    (C6_text_threshold_exclusive q6 d6b repoEmpty).2.1 hb⟩

/-- Claim C1 counterexample: "play the demo video" is a video request and a
video candidate exists in the repository, yet — because `search_videos`
already filters by `VIDEO_THRESHOLD` and this video scores 0 — the search
falls through and returns a text result, not a video. -/
theorem C1_counterexample :
    is_video_request q1 = true ∧
    repo1.videos = Except.ok [v1] ∧
    search_content_with_retry q1 repo1 0 =
      some (ResultItem.text t1.content t1.source_file t1.page (1 / 4)) ∧
    (ResultItem.text t1.content t1.source_file t1.page (1 / 4)).isVideo = false := by
  have hv : processVideoDoc q1 v1 = none :=
    processVideoDoc_neg e_q1_v1 (by norm_num [VIDEO_THRESHOLD])
  have hsv : search_videos q1 repo1.videos = [] := by
    simp [search_videos, repo1, hv]
  have ht : processTextDoc q1 t1 =
      some (ResultItem.text t1.content t1.source_file t1.page (1 / 4)) :=
    processTextDoc_pos e_q1_t1 (by norm_num [TEXT_THRESHOLD])
  refine ⟨by decide, rfl, ?_, rfl⟩
  rw [search_content_general 0 (by simp [hsv, maxByScore])]
  simp [textCands, imageCands, repo1, ht, hsv, maxByScore, pickMax]

/-- Claim C1 (amended): on a video request, if `search_videos` keeps at least
one video (that is, at least one video candidate scores strictly above
`VIDEO_THRESHOLD`), the search returns a maximum-scoring video from that
pool, regardless of how any text candidate scores. -/
theorem C1_video_intent_override (query : Str) (repo : Repo) (now : Nat)
    (hivr : is_video_request query = true)
    (hv : search_videos query repo.videos ≠ []) :
    ∃ r, search_content_with_retry query repo now = some r ∧
      r.isVideo = true ∧
      r ∈ search_videos query repo.videos ∧
      ∀ x ∈ search_videos query repo.videos, x.score ≤ r.score := by
  cases hsv : search_videos query repo.videos with
  | nil => exact absurd hsv hv
  | cons v vs =>
    have hmem : pickMax v vs ∈ search_videos query repo.videos := by
      rw [hsv]
      exact pickMax_mem vs v
    refine ⟨pickMax v vs, ?_, (mem_search_videos hmem).1, pickMax_mem vs v, ?_⟩
    · rw [search_content_forced now hivr hv, hsv, maxByScore]
    · intro x hx
      exact pickMax_le vs v x hx

/-- Claim C1 witness: "play alpha" with one video scoring 3/2 and a text
candidate scoring 11/6 — strictly higher — still returns the video. -/
theorem C1_witness :
    is_video_request q1w = true ∧
    search_videos q1w repo1w.videos = [ResultItem.video v1w (3 / 2)] ∧
    calculate_tfidf_score q1w t1w.content = 11 / 6 ∧
    (∃ r, search_content_with_retry q1w repo1w 0 = some r ∧
      r.isVideo = true ∧
      r ∈ search_videos q1w repo1w.videos ∧
      ∀ x ∈ search_videos q1w repo1w.videos, x.score ≤ r.score) := by
  have hvd : processVideoDoc q1w v1w = some (ResultItem.video v1w (3 / 2)) :=
    processVideoDoc_pos e_q1w_v1w (by norm_num [VIDEO_THRESHOLD])
  have hsv : search_videos q1w repo1w.videos = [ResultItem.video v1w (3 / 2)] := by
    simp [search_videos, repo1w, hvd]
  refine ⟨by decide, hsv, e_q1w_t1w,
    C1_video_intent_override q1w repo1w 0 (by decide) (by rw [hsv]; simp)⟩

/-- Claim C5: on a video request for which the video search returns nothing,
the search falls through to the general pool over text and image only (the
non-video-intent guard prevents a second video pass), so any result it
returns is not a video. -/
theorem C5_video_fallthrough (query : Str) (repo : Repo) (now : Nat)
    (hivr : is_video_request query = true)
    (hv : search_videos query repo.videos = []) :
    search_content_with_retry query repo now =
      maxByScore (textCands query repo ++ imageCands query repo now) ∧
    ∀ r, search_content_with_retry query repo now = some r → r.isVideo = false := by
  have hgen : search_content_with_retry query repo now =
      maxByScore (textCands query repo ++ imageCands query repo now) := by
    rw [search_content_general now (by simp [hv, maxByScore])]
    simp [hivr]
  refine ⟨hgen, ?_⟩
  intro r hr
  rw [hgen] at hr
  rcases List.mem_append.mp (maxByScore_spec hr).1 with h | h
  · exact (mem_textCands h).1
  · exact (mem_imageCands h).1

/-- Claim C5 witness: "show video" with zero video candidates and one text
candidate scoring exactly 3/10 returns that text candidate. -/
theorem C5_witness :
    is_video_request q5 = true ∧
    search_videos q5 repo5.videos = [] ∧
    search_content_with_retry q5 repo5 0 =
      some (ResultItem.text t5.content t5.source_file t5.page (3 / 10)) ∧
    (∀ r, search_content_with_retry q5 repo5 0 = some r → r.isVideo = false) := by
  have hsv : search_videos q5 repo5.videos = [] := by
    simp [search_videos, repo5]
  have hC5 := C5_video_fallthrough q5 repo5 0 (by decide) hsv
  have ht : processTextDoc q5 t5 =
      some (ResultItem.text t5.content t5.source_file t5.page (3 / 10)) :=
    processTextDoc_pos e_q5_t5 (by norm_num [TEXT_THRESHOLD])
  refine ⟨by decide, hsv, ?_, hC5.2⟩
  rw [hC5.1]
  simp [textCands, imageCands, repo5, ht, maxByScore, pickMax]

/-- Claim C2 (amended): in general search (non-video-intent query), the
selected result is a maximum-scoring member of the merged thresholded pool,
and ties are broken by first encounter in the pool's iteration order, which
is text, then image, then video — not video first. -/
theorem C2_general_first_max (query : Str) (repo : Repo) (now : Nat)
    (hivr : is_video_request query = false) (r : ResultItem)
    (hr : search_content_with_retry query repo now = some r) :
    r ∈ textCands query repo ++ imageCands query repo now ++ search_videos query repo.videos ∧
    (∀ x ∈ textCands query repo ++ imageCands query repo now
        ++ search_videos query repo.videos, x.score ≤ r.score) ∧
    ∃ l1 l2,
      textCands query repo ++ imageCands query repo now ++ search_videos query repo.videos
        = l1 ++ r :: l2 ∧ ∀ x ∈ l1, x.score < r.score := by
  rw [search_content_general now (by simp [hivr])] at hr
  rw [hivr] at hr
  simp only [Bool.false_eq_true, if_false] at hr
  exact maxByScore_spec hr

/-- Shared evaluation for the C2 fixtures: with the text and the video tied
at score 2, the search returns the text (it is encountered first). -/
theorem search2_eval :
    search_content_with_retry q2 repo2 0 =
      some (ResultItem.text t2.content t2.source_file t2.page 2) := by
  have ht : processTextDoc q2 t2 =
      some (ResultItem.text t2.content t2.source_file t2.page 2) :=
    processTextDoc_pos e_q2_t2 (by norm_num [TEXT_THRESHOLD])
  have hvd : processVideoDoc q2 v2 = some (ResultItem.video v2 2) :=
    processVideoDoc_pos e_q2_v2 (by norm_num [VIDEO_THRESHOLD])
  rw [search_content_general 0 (by simp [show is_video_request q2 = false from by decide])]
  rw [show is_video_request q2 = false from by decide]
  simp only [Bool.false_eq_true, if_false]
  simp only [textCands, imageCands, search_videos, repo2]
  simp only [List.filterMap_cons, List.filterMap_nil, ht, hvd]
  simp only [List.nil_append, List.append_nil, List.cons_append, maxByScore, pickMax]
  norm_num [ResultItem.score]

/-- Claim C2 counterexample: a text candidate and a video candidate tie at
score 2 on a non-video query, and the search returns the TEXT — so the
tie-break order is not video first. -/
theorem C2_counterexample :
    is_video_request q2 = false ∧
    search_videos q2 repo2.videos = [ResultItem.video v2 2] ∧
    (ResultItem.video v2 2).score =
      (ResultItem.text t2.content t2.source_file t2.page 2).score ∧
    search_content_with_retry q2 repo2 0 =
      some (ResultItem.text t2.content t2.source_file t2.page 2) ∧
    (ResultItem.text t2.content t2.source_file t2.page 2).isVideo = false := by
  have hvd : processVideoDoc q2 v2 = some (ResultItem.video v2 2) :=
    processVideoDoc_pos e_q2_v2 (by norm_num [VIDEO_THRESHOLD])
  exact ⟨by decide, by simp [search_videos, repo2, hvd], rfl, search2_eval, rfl⟩

/-- Claim C2 witness: the amended theorem applied to the tied fixtures — the
returned text is in the pool, maximal, and everything placed before it in
the pool scores strictly less. -/
theorem C2_witness :
    is_video_request q2 = false ∧
    ((ResultItem.text t2.content t2.source_file t2.page 2)
        ∈ textCands q2 repo2 ++ imageCands q2 repo2 0 ++ search_videos q2 repo2.videos ∧
      (∀ x ∈ textCands q2 repo2 ++ imageCands q2 repo2 0 ++ search_videos q2 repo2.videos,
        x.score ≤ (ResultItem.text t2.content t2.source_file t2.page 2).score) ∧
      ∃ l1 l2,
        textCands q2 repo2 ++ imageCands q2 repo2 0 ++ search_videos q2 repo2.videos
          = l1 ++ (ResultItem.text t2.content t2.source_file t2.page 2) :: l2 ∧
        ∀ x ∈ l1, x.score < (ResultItem.text t2.content t2.source_file t2.page 2).score) :=
  ⟨by decide, C2_general_first_max q2 repo2 0 (by decide) _ search2_eval⟩

/-- Terms with a false predicate and zero value can be dropped from a
filtered mapped sum. -/
theorem sum_map_filter_eq (l : List Str) (g : Str → ℚ) (p : Str → Bool)
    (h : ∀ w ∈ l, p w = false → g w = 0) :
    ((l.filter p).map g).sum = (l.map g).sum := by
  induction l with
  | nil => simp
  | cons a t ih =>
    have ht : ∀ w ∈ t, p w = false → g w = 0 :=
      fun w hw => h w (List.mem_cons_of_mem a hw)
    rw [List.filter_cons]
    by_cases hp : p a = true
    · rw [if_pos hp]
      simp only [List.map_cons, List.sum_cons]
      rw [ih ht]
    · have hp0 : p a = false := by simpa using hp
      rw [if_neg (by simp [hp0])]
      simp only [List.map_cons, List.sum_cons]
      rw [ih ht, h a (List.mem_cons_self a t) hp0, zero_add]

/-- Claim C4: for nonempty inputs that tokenize to nonempty word sets, the
score is exactly the spec's base score (average per-unique-query-word
normalized frequency) plus the exact-match bonus plus the title-match
bonus. -/
theorem C4_score_formula (query text : Str)
    (hq : query ≠ []) (ht : text ≠ [])
    (hqw : findWords (lowerStr query) ≠ []) (htw : findWords (lowerStr text) ≠ []) :
    calculate_tfidf_score query text =
      specBaseScore query text + specExactBonus query text + specTitleBonus query text := by
  have hqd : (findWords (lowerStr query)).dedup ≠ [] := by
    simpa [List.dedup_eq_nil] using hqw
  rw [calculate_tfidf_score_eq query text hq ht hqd htw]
  have hbase :
      (((((findWords (lowerStr query)).dedup.filter
          (fun w => (findWords (lowerStr text)).count w != 0)).map
          (fun w => (findWords (lowerStr text)).count w)).sum : ℚ)
        / ((findWords (lowerStr text)).length : ℚ))
        / (((findWords (lowerStr query)).dedup.length : ℚ)) = specBaseScore query text := by
    rw [specBaseScore, Nat.cast_list_sum, List.map_map]
    rw [show ((Nat.cast : ℕ → ℚ) ∘ fun w => (findWords (lowerStr text)).count w)
        = (fun w => (((findWords (lowerStr text)).count w : ℕ) : ℚ)) from rfl]
    rw [← sum_map_div]
    rw [sum_map_filter_eq _ _ _ (fun w _ hw => by
      have hw0 : (findWords (lowerStr text)).count w = 0 := by simpa using hw
      rw [hw0]
      norm_num)]
    rw [← List.sum_toFinset _ (List.nodup_dedup _)]
    have hdt : (findWords (lowerStr query)).dedup.toFinset
        = (findWords (lowerStr query)).toFinset :=
      List.toFinset.ext (fun x => List.mem_dedup)
    rw [hdt, List.card_toFinset]
  have htitle :
      (if substrB "title".toList (lowerStr text)
          && (findWords (lowerStr query)).dedup.any (fun w => substrB w (lowerStr text))
       then (1 : ℚ) / 2 else 0) = specTitleBonus query text := by
    rw [specTitleBonus]
    refine if_congr ?_ rfl rfl
    rw [Bool.and_eq_true]
    constructor
    · rintro ⟨h1, h2⟩
      obtain ⟨w, hw, hsub⟩ := List.any_eq_true.mp h2
      exact ⟨h1, w, List.mem_toFinset.mpr (List.mem_dedup.mp hw), hsub⟩
    · rintro ⟨h1, w, hw, hsub⟩
      exact ⟨h1, List.any_eq_true.mpr
        ⟨w, List.mem_dedup.mpr (List.mem_toFinset.mp hw), hsub⟩⟩
  rw [hbase, htitle, specExactBonus]

/-- Claim C4 witness: the decomposition at the spec's end-to-end example
query "revenue growth" and passage "The quarterly report shows revenue
growth". -/
theorem C4_witness :
    "revenue growth".toList ≠ ([] : Str) ∧
    "The quarterly report shows revenue growth".toList ≠ ([] : Str) ∧
    findWords (lowerStr "revenue growth".toList) ≠ [] ∧
    findWords (lowerStr "The quarterly report shows revenue growth".toList) ≠ [] ∧
    calculate_tfidf_score "revenue growth".toList
        "The quarterly report shows revenue growth".toList =
      specBaseScore "revenue growth".toList
          "The quarterly report shows revenue growth".toList
        + specExactBonus "revenue growth".toList
            "The quarterly report shows revenue growth".toList
        + specTitleBonus "revenue growth".toList
            "The quarterly report shows revenue growth".toList :=
  ⟨by decide, by decide, by decide, by decide,
    C4_score_formula _ _ (by decide) (by decide) (by decide) (by decide)⟩

end Webhook
